import Mathlib

/-
Verification of the air-quality data-visualization pipeline
(visualization.py).  The script's cleaning and aggregation core is
embedded shallowly:

  * numeric pollutant values are rationals (the script's floats carry
    exact decimal data; no float rounding is relevant to the claims);
  * a daily record is a structure with the ten pollutant columns;
  * pandas frames are lists of rows; column-wise operations are maps
    and filters over those lists;
  * `Series.quantile(0.99)` (default linear interpolation, as used at
    line 58 of the source) is `quantile99` below;
  * missing values (NaN) are `Option.none`;
  * Python strings are lists of character codes, with the ASCII
    semantics of `str.strip` / `str.title`.

Each section names the source lines it embeds.
-/

namespace AirQuality

/-! ## AQI categorisation (visualization.py lines 61-67)

`get_aqi_category(pm25)` is a cascade of inclusive upper bounds. -/

/-- Embedding of `get_aqi_category` from visualization.py lines 61-67. -/
def get_aqi_category (pm25 : ℚ) : String :=
  if pm25 ≤ 30 then "Good"
  else if pm25 ≤ 60 then "Satisfactory"
  else if pm25 ≤ 90 then "Moderate"
  else if pm25 ≤ 120 then "Poor"
  else if pm25 ≤ 250 then "Very Poor"
  else "Severe"

/-- The fixed category order used at line 117 of the source
(`category_order = ['Good', ..., 'Severe']`). -/
def categoryOrder : List String :=
  ["Good", "Satisfactory", "Moderate", "Poor", "Very Poor", "Severe"]

/-- Severity rank of a category name, following `categoryOrder`:
Good is least severe, Severe is most severe. -/
def sevIdx (s : String) : ℕ :=
  if s = "Good" then 0
  else if s = "Satisfactory" then 1
  else if s = "Moderate" then 2
  else if s = "Poor" then 3
  else if s = "Very Poor" then 4
  else 5

/-! ## Season derivation (visualization.py lines 44-48) -/

/-- Embedding of the season lambda from visualization.py lines 44-48:
`'Winter' if x in [12,1,2] else 'Summer' if x in [3,4,5] else
 'Monsoon' if x in [6,7,8,9] else 'Autumn'`. -/
def season (m : ℕ) : String :=
  if m = 12 ∨ m = 1 ∨ m = 2 then "Winter"
  else if m = 3 ∨ m = 4 ∨ m = 5 then "Summer"
  else if m = 6 ∨ m = 7 ∨ m = 8 ∨ m = 9 then "Monsoon"
  else "Autumn"

/-- C2: `get_aqi_category` returns Good on v ≤ 30, Satisfactory on
30 < v ≤ 60, Moderate on 60 < v ≤ 90, Poor on 90 < v ≤ 120, Very Poor
on 120 < v ≤ 250 and Severe otherwise, with each bound inclusive on
the upper edge; the severity rank of the category is monotonically
non-decreasing in v, and negative inputs fall into Good. -/
theorem get_aqi_category_spec :
    (∀ v : ℚ, v ≤ 30 → get_aqi_category v = "Good") ∧
    (∀ v : ℚ, 30 < v → v ≤ 60 → get_aqi_category v = "Satisfactory") ∧
    (∀ v : ℚ, 60 < v → v ≤ 90 → get_aqi_category v = "Moderate") ∧
    (∀ v : ℚ, 90 < v → v ≤ 120 → get_aqi_category v = "Poor") ∧
    (∀ v : ℚ, 120 < v → v ≤ 250 → get_aqi_category v = "Very Poor") ∧
    (∀ v : ℚ, 250 < v → get_aqi_category v = "Severe") ∧
    (∀ v w : ℚ, v ≤ w → sevIdx (get_aqi_category v) ≤ sevIdx (get_aqi_category w)) ∧
    (∀ v : ℚ, v < 0 → get_aqi_category v = "Good") := by
  refine ⟨?_, ?_, ?_, ?_, ?_, ?_, ?_, ?_⟩
  · intro v h; unfold get_aqi_category; split_ifs <;> first | rfl | linarith
  · intro v h1 h2; unfold get_aqi_category; split_ifs <;> first | rfl | linarith
  · intro v h1 h2; unfold get_aqi_category; split_ifs <;> first | rfl | linarith
  · intro v h1 h2; unfold get_aqi_category; split_ifs <;> first | rfl | linarith
  · intro v h1 h2; unfold get_aqi_category; split_ifs <;> first | rfl | linarith
  · intro v h1; unfold get_aqi_category; split_ifs <;> first | rfl | linarith
  · intro v w h; unfold get_aqi_category
    split_ifs <;> first | decide | linarith
  · intro v h; unfold get_aqi_category; split_ifs <;> first | rfl | linarith

/-- Witness for `get_aqi_category_spec`: each branch and the
monotonicity clause instantiated at concrete rational inputs. -/
theorem get_aqi_category_spec_witness :
    get_aqi_category 30 = "Good" ∧
    get_aqi_category 60 = "Satisfactory" ∧
    get_aqi_category 90 = "Moderate" ∧
    get_aqi_category 120 = "Poor" ∧
    get_aqi_category 250 = "Very Poor" ∧
    get_aqi_category 251 = "Severe" ∧
    sevIdx (get_aqi_category 10) ≤ sevIdx (get_aqi_category 300) ∧
    get_aqi_category (-5) = "Good" :=
  ⟨get_aqi_category_spec.1 30 (by norm_num),
   get_aqi_category_spec.2.1 60 (by norm_num) (by norm_num),
   get_aqi_category_spec.2.2.1 90 (by norm_num) (by norm_num),
   get_aqi_category_spec.2.2.2.1 120 (by norm_num) (by norm_num),
   get_aqi_category_spec.2.2.2.2.1 250 (by norm_num) (by norm_num),
   get_aqi_category_spec.2.2.2.2.2.1 251 (by norm_num),
   get_aqi_category_spec.2.2.2.2.2.2.1 10 300 (by norm_num),
   get_aqi_category_spec.2.2.2.2.2.2.2 (-5) (by norm_num)⟩

/-- C6: the season function is total over months 1..12 and maps each
month to exactly one of the four seasons per the fixed table: 12, 1, 2
to Winter; 3, 4, 5 to Summer; 6, 7, 8, 9 to Monsoon; 10, 11 to
Autumn. -/
theorem season_spec :
    (season 12 = "Winter" ∧ season 1 = "Winter" ∧ season 2 = "Winter") ∧
    (season 3 = "Summer" ∧ season 4 = "Summer" ∧ season 5 = "Summer") ∧
    (season 6 = "Monsoon" ∧ season 7 = "Monsoon" ∧
     season 8 = "Monsoon" ∧ season 9 = "Monsoon") ∧
    (season 10 = "Autumn" ∧ season 11 = "Autumn") ∧
    (([1, 2, 3, 4, 5, 6, 7, 8, 9, 10, 11, 12] : List ℕ).all fun m =>
      (["Winter", "Summer", "Monsoon", "Autumn"] : List String).contains (season m)) = true := by
  decide

/-! ## Daily rows and the outlier-trim loop (visualization.py lines 53-58)

`pollutants = ['PM2.5','PM10','NO2','NH3','SO2','CO','O3','Benzene',
'Toluene','Xylene']`; the trim loop reassigns
`city_day = city_day[city_day[col] < city_day[col].quantile(0.99)]`
for each column in that order (the `col in city_day.columns` guard is
always true for the expected input files, whose rows carry all ten
columns). -/

/-- The ten pollutant columns, in the documented order of line 53. -/
inductive Pollutant : Type
  | pm25 | pm10 | no2 | nh3 | so2 | co | o3 | benzene | toluene | xylene
deriving DecidableEq, Repr

/-- The fixed ordered pollutant list of line 53. -/
def pollutants : List Pollutant :=
  [.pm25, .pm10, .no2, .nh3, .so2, .co, .o3, .benzene, .toluene, .xylene]

/-- One row of the daily dataset after imputation: the ten pollutant
concentrations (other columns play no role in the trim loop). -/
structure DayRow : Type where
  pm25 : ℚ
  pm10 : ℚ
  no2 : ℚ
  nh3 : ℚ
  so2 : ℚ
  co : ℚ
  o3 : ℚ
  benzene : ℚ
  toluene : ℚ
  xylene : ℚ
deriving DecidableEq, Repr

/-- Column projection `row[col]`. -/
def getP (r : DayRow) : Pollutant → ℚ
  | .pm25 => r.pm25
  | .pm10 => r.pm10
  | .no2 => r.no2
  | .nh3 => r.nh3
  | .so2 => r.so2
  | .co => r.co
  | .o3 => r.o3
  | .benzene => r.benzene
  | .toluene => r.toluene
  | .xylene => r.xylene

/-- A row with the same value in every pollutant column. -/
def mkConst (q : ℚ) : DayRow :=
  ⟨q, q, q, q, q, q, q, q, q, q⟩

/-- Linear interpolation at virtual position 0.99 * (n-1) within an
(ascending) sorted list, as pandas' default `interpolation='linear'`
does: with i = ⌊0.99 * (n-1)⌋ and frac = 0.99 * (n-1) - i the result
is x_i + frac * (x_(i+1) - x_i), clamping the upper index at n-1. -/
def qinterp (s : List ℚ) : ℚ :=
  s.getD (99 * (s.length - 1) / 100) 0 +
    (((99 * (s.length - 1) : ℕ) : ℚ) / 100 - ((99 * (s.length - 1) / 100 : ℕ) : ℚ)) *
      (s.getD (min (99 * (s.length - 1) / 100 + 1) (s.length - 1)) 0 -
        s.getD (99 * (s.length - 1) / 100) 0)

/-- `Series.quantile(0.99)` with pandas' default linear interpolation:
sort the values ascending and interpolate at position 0.99 * (n-1). -/
def quantile99 (xs : List ℚ) : ℚ :=
  if xs.length = 0 then 0 else qinterp (xs.insertionSort (· ≤ ·))

/-- One iteration of the trim loop (line 58): keep the rows whose
value in `col` is strictly below the column's 99th percentile,
computed over the current dataset. -/
def trimStep (rows : List DayRow) (col : Pollutant) : List DayRow :=
  rows.filter fun r => decide (getP r col < quantile99 (rows.map fun r2 => getP r2 col))

/-- The trim loop after the first `k` pollutant columns. -/
def trimUpTo (rows : List DayRow) (k : ℕ) : List DayRow :=
  (pollutants.take k).foldl trimStep rows

/-- The whole trim loop of lines 56-58. -/
def trimOutliers (rows : List DayRow) : List DayRow :=
  pollutants.foldl trimStep rows

/-- Unfolding one stage of the trim loop. -/
theorem trimUpTo_succ (rows : List DayRow) (k : ℕ) (hk : k < pollutants.length) :
    trimUpTo rows (k + 1) = trimStep (trimUpTo rows k) (pollutants.getD k .pm25) := by
  unfold trimUpTo
  rw [List.take_succ, List.foldl_append]
  have h : pollutants[k]? = some (pollutants.getD k .pm25) := by
    rw [List.getD_eq_getElem?_getD, List.getElem?_eq_getElem hk]
    rfl
  rw [h]
  rfl

/-- Past the last column the trim loop is stationary. -/
theorem trimUpTo_stable (rows : List DayRow) (k : ℕ) (hk : pollutants.length ≤ k) :
    trimUpTo rows (k + 1) = trimUpTo rows k := by
  unfold trimUpTo
  rw [List.take_of_length_le hk, List.take_of_length_le (Nat.le_succ_of_le hk)]

/-- Interpolating a sorted nonempty list never exceeds any upper bound
of its elements. -/
theorem qinterp_le_of_forall_le (s : List ℚ) (M : ℚ) (hne : s.length ≠ 0)
    (hsorted : s.Sorted (· ≤ ·)) (hM : ∀ x ∈ s, x ≤ M) :
    qinterp s ≤ M := by
  have hi_lt : 99 * (s.length - 1) / 100 < s.length := by omega
  have hj_lt : min (99 * (s.length - 1) / 100 + 1) (s.length - 1) < s.length := by omega
  have hgetD : ∀ (k : ℕ) (hk : k < s.length), s.getD k 0 = s.get ⟨k, hk⟩ := by
    intro k hk
    rw [List.getD_eq_getElem?_getD, List.getElem?_eq_getElem hk]
    rfl
  have hlo_mem : s.getD (99 * (s.length - 1) / 100) 0 ∈ s := by
    rw [hgetD _ hi_lt]; exact s.get_mem _ hi_lt
  have hhi_mem : s.getD (min (99 * (s.length - 1) / 100 + 1) (s.length - 1)) 0 ∈ s := by
    rw [hgetD _ hj_lt]; exact s.get_mem _ hj_lt
  have horder : s.getD (99 * (s.length - 1) / 100) 0 ≤
      s.getD (min (99 * (s.length - 1) / 100 + 1) (s.length - 1)) 0 := by
    rw [hgetD _ hi_lt, hgetD _ hj_lt]
    exact hsorted.rel_get_of_le (by simp [Fin.mk_le_mk]; omega)
  have hnat1 : 99 * (s.length - 1) / 100 * 100 ≤ 99 * (s.length - 1) := by omega
  have hnat2 : 99 * (s.length - 1) ≤ (99 * (s.length - 1) / 100 + 1) * 100 := by omega
  have hfrac1 : ((99 * (s.length - 1) / 100 : ℕ) : ℚ) ≤ ((99 * (s.length - 1) : ℕ) : ℚ) / 100 := by
    rw [le_div_iff₀ (by norm_num)]
    exact_mod_cast Nat.cast_le.mpr hnat1
  have hfrac2 : ((99 * (s.length - 1) : ℕ) : ℚ) / 100 ≤ ((99 * (s.length - 1) / 100 : ℕ) : ℚ) + 1 := by
    rw [div_le_iff₀ (by norm_num)]
    exact_mod_cast Nat.cast_le.mpr hnat2
  have hhiM := hM _ hhi_mem
  unfold qinterp
  nlinarith [horder, hfrac1, hfrac2, hhiM]

/-- The 99th-percentile threshold never exceeds the maximum value of a
nonempty value list. -/
theorem quantile99_le_max (xs : List ℚ) (M : ℚ) (hne : xs ≠ [])
    (hM : ∀ x ∈ xs, x ≤ M) : quantile99 xs ≤ M := by
  have hlen : xs.length ≠ 0 := by
    intro h; exact hne (List.length_eq_zero.mp h)
  have hperm := List.perm_insertionSort (· ≤ ·) xs
  have hslen : (xs.insertionSort (· ≤ ·)).length ≠ 0 := by
    rw [hperm.length_eq]; exact hlen
  unfold quantile99
  rw [if_neg hlen]
  exact qinterp_le_of_forall_le _ M hslen (List.sorted_insertionSort (· ≤ ·) xs)
    fun x hx => hM x (hperm.mem_iff.mp hx)

/-- C3 (amended): one step of the trim loop removes every row that
attains the column maximum of the current dataset, so it always
removes at least one row from a nonempty dataset; the 1% bound of the
original claim does not hold. -/
theorem trim_removes_max_row (rows : List DayRow) (col : Pollutant) (r : DayRow)
    (hr : r ∈ rows) (hmax : ∀ r2 ∈ rows, getP r2 col ≤ getP r col) :
    r ∉ trimStep rows col ∧ (trimStep rows col).length < rows.length := by
  have hne : (rows.map fun r2 => getP r2 col) ≠ [] := by
    intro h
    rw [List.map_eq_nil] at h
    subst h
    exact absurd hr (List.not_mem_nil r)
  have hM : ∀ x ∈ rows.map fun r2 => getP r2 col, x ≤ getP r col := by
    intro x hx
    obtain ⟨r2, hr2, rfl⟩ := List.mem_map.mp hx
    exact hmax r2 hr2
  have hQ : quantile99 (rows.map fun r2 => getP r2 col) ≤ getP r col :=
    quantile99_le_max _ _ hne hM
  have hnot : r ∉ trimStep rows col := by
    intro hmem
    have := (List.mem_filter.mp hmem).2
    have hlt := of_decide_eq_true this
    linarith
  refine ⟨hnot, ?_⟩
  have hsub : (trimStep rows col).Sublist rows := List.filter_sublist rows
  rcases Nat.lt_or_ge (trimStep rows col).length rows.length with h | h
  · exact h
  · exfalso
    have heq := hsub.eq_of_length_le h
    rw [heq] at hnot
    exact hnot hr

/-- Witness for `trim_removes_max_row` on the concrete two-row dataset
with PM2.5 values 1 and 2. -/
theorem trim_removes_max_row_witness :
    mkConst 2 ∉ trimStep [mkConst 1, mkConst 2] Pollutant.pm25 ∧
    (trimStep [mkConst 1, mkConst 2] Pollutant.pm25).length <
      ([mkConst 1, mkConst 2] : List DayRow).length :=
  trim_removes_max_row [mkConst 1, mkConst 2] Pollutant.pm25 (mkConst 2)
    (by decide) (by decide)

/-- C3 counterexample: on a two-row dataset with PM2.5 values 1 and 2
the 99th-percentile threshold is 1.99, the trim step removes one of
the two rows present (50% of them), which is more than 1%. -/
theorem trim_one_percent_counterexample :
    (trimStep [mkConst 1, mkConst 2] Pollutant.pm25).length = 1 ∧
    ([mkConst 1, mkConst 2] : List DayRow).length = 2 ∧
    ¬ ((((([mkConst 1, mkConst 2] : List DayRow).length -
          (trimStep [mkConst 1, mkConst 2] Pollutant.pm25).length : ℕ)) : ℚ) ≤
        ((([mkConst 1, mkConst 2] : List DayRow).length : ℕ) : ℚ) / 100) := by
  have h1 : trimStep [mkConst 1, mkConst 2] Pollutant.pm25 = [mkConst 1] := by
    norm_num [trimStep, quantile99, qinterp, List.insertionSort, List.orderedInsert,
      getP, mkConst, List.filter]
  rw [h1]
  norm_num

/-- C1 (amended): the full outlier-trim loop is the sequential fold of
the per-column filters in the fixed documented column order; each step
produces a sublist of the previous dataset (whole rows are removed,
surviving rows are untouched and keep their order), and a row of the
current dataset survives a step exactly when its value in that column
is strictly below (not merely fails to exceed) the column's
99th-percentile threshold computed over the current dataset. -/
theorem trim_loop_spec (rows : List DayRow) :
    trimOutliers rows = trimUpTo rows pollutants.length ∧
    (∀ k : ℕ, (trimUpTo rows (k + 1)).Sublist (trimUpTo rows k)) ∧
    (∀ k : ℕ, k < pollutants.length → ∀ r ∈ trimUpTo rows k,
      (r ∈ trimUpTo rows (k + 1) ↔
        getP r (pollutants.getD k .pm25) <
          quantile99 ((trimUpTo rows k).map fun r2 => getP r2 (pollutants.getD k .pm25)))) := by
  refine ⟨?_, ?_, ?_⟩
  · unfold trimOutliers trimUpTo
    rw [List.take_length]
  · intro k
    rcases Nat.lt_or_ge k pollutants.length with hk | hk
    · rw [trimUpTo_succ rows k hk]
      exact List.filter_sublist _
    · rw [trimUpTo_stable rows k hk]
  · intro k hk r hr
    rw [trimUpTo_succ rows k hk]
    unfold trimStep
    rw [List.mem_filter]
    constructor
    · intro h
      exact of_decide_eq_true h.2
    · intro h
      exact ⟨hr, decide_eq_true h⟩

/-- Witness for `trim_loop_spec`: on the two-row dataset with PM2.5
values 0 and 1, the first trim step keeps the row with value 0
(0 < threshold 0.99). -/
theorem trim_loop_spec_witness :
    mkConst 0 ∈ trimUpTo [mkConst 0, mkConst 1] 1 :=
  ((trim_loop_spec [mkConst 0, mkConst 1]).2.2 0 (by decide) (mkConst 0)
    (by decide)).mpr (by
      norm_num [trimUpTo, trimStep, pollutants, quantile99, qinterp,
        List.insertionSort, List.orderedInsert, getP, mkConst, List.filter])

/-- C1 counterexample: on a two-row dataset whose PM2.5 values both
equal 5, the 99th-percentile threshold is 5; no row's value exceeds
the threshold, yet the trim step removes both rows, because the code
keeps only rows strictly below the threshold. -/
theorem trim_threshold_equality_counterexample :
    quantile99 (([mkConst 5, mkConst 5] : List DayRow).map fun r => getP r Pollutant.pm25) = 5 ∧
    getP (mkConst 5) Pollutant.pm25 = 5 ∧
    ¬ getP (mkConst 5) Pollutant.pm25 >
        quantile99 (([mkConst 5, mkConst 5] : List DayRow).map fun r => getP r Pollutant.pm25) ∧
    trimStep [mkConst 5, mkConst 5] Pollutant.pm25 = [] := by
  norm_num [trimStep, quantile99, qinterp, List.insertionSort, List.orderedInsert,
    getP, mkConst, List.filter]

/-! ## Missing-value imputation (visualization.py line 54)

`city_day[pollutants] = city_day[pollutants].fillna(city_day[pollutants].mean())`
acts column by column: each column's missing entries receive that
column's mean over its non-missing entries.  A column is a list of
optional rationals, `none` standing for NaN.  `DataFrame.mean()`
skips NaN and is itself NaN on an all-NaN column, and `fillna` with a
NaN fill value leaves missing entries missing. -/

/-- The column mean over non-missing entries (`none` when the column
has no non-missing entry, as pandas' NaN mean). -/
def colMean (xs : List (Option ℚ)) : Option ℚ :=
  if (xs.filterMap id).length = 0 then none
  else some ((xs.filterMap id).sum / ((xs.filterMap id).length : ℚ))

/-- The fillna step of line 54 on one pollutant column. -/
def fillnaCol (xs : List (Option ℚ)) : List (Option ℚ) :=
  xs.map fun v =>
    match v with
    | some a => some a
    | none => colMean xs

/-- C4 (amended): on a pollutant column with at least one non-missing
value, imputation leaves no entry missing: present entries are kept
and each missing entry becomes the column's arithmetic mean over its
non-missing values.  (An all-missing column, by contrast, stays
missing: see the counterexample.) -/
theorem fillna_spec (xs : List (Option ℚ)) (h : xs.filterMap id ≠ []) :
    (∀ y ∈ fillnaCol xs, y.isSome = true) ∧
    (∀ i : ℕ, xs.get? i = some none →
      (fillnaCol xs).get? i =
        some (some ((xs.filterMap id).sum / ((xs.filterMap id).length : ℚ)))) ∧
    (∀ (i : ℕ) (a : ℚ), xs.get? i = some (some a) →
      (fillnaCol xs).get? i = some (some a)) := by
  have hlen : (xs.filterMap id).length ≠ 0 := by
    intro h0; exact h (List.length_eq_zero.mp h0)
  have hmean : colMean xs =
      some ((xs.filterMap id).sum / ((xs.filterMap id).length : ℚ)) := by
    unfold colMean; rw [if_neg hlen]
  refine ⟨?_, ?_, ?_⟩
  · intro y hy
    obtain ⟨v, hv, rfl⟩ := List.mem_map.mp hy
    cases v with
    | some a => rfl
    | none => rw [hmean]; rfl
  · intro i hi
    unfold fillnaCol
    rw [List.get?_map, hi]
    rw [hmean]
    rfl
  · intro i a hi
    unfold fillnaCol
    rw [List.get?_map, hi]
    rfl

/-- Witness for `fillna_spec`: the column [some 2, none] is imputed to
[some 2, some 2] (the mean of the single non-missing value 2). -/
theorem fillna_spec_witness :
    (fillnaCol [some 2, none]).get? 1 = some (some (2 : ℚ)) := by
  have h := (fillna_spec [some 2, none] (by decide)).2.1 1 (by decide)
  norm_num [List.filterMap] at h
  exact h

/-- C4 counterexample: a column consisting of a single missing value
is unchanged by imputation — its mean is undefined (NaN), so the
missing entry is not replaced and the column still contains a missing
value after the Cleaner's fillna. -/
theorem fillna_all_missing_counterexample :
    fillnaCol [none] = [none] ∧ none ∈ fillnaCol [none] := by
  decide

/-! ## AQI category distribution (visualization.py lines 69 and 115-118)

`city_day['AQI_Category'] = city_day['PM2.5'].apply(get_aqi_category)`
then `aqi_counts = city_day['AQI_Category'].value_counts()` reindexed
over `category_order` with `fill_value=0`: the reindexed table has one
entry per fixed category, counting the rows in that category. -/

/-- The reindexed category-count table of lines 115-118. -/
def aqiCounts (rows : List DayRow) : List (String × ℕ) :=
  categoryOrder.map fun c =>
    (c, (rows.filter fun r => get_aqi_category r.pm25 == c).length)

/-- Every categorised value lands in one of the six fixed categories. -/
theorem get_aqi_category_mem_order (v : ℚ) : get_aqi_category v ∈ categoryOrder := by
  unfold get_aqi_category categoryOrder
  split_ifs <;> simp

/-- Summing a pointwise sum of two maps splits into two sums. -/
theorem sum_map_add {α : Type} (f g : α → ℕ) (l : List α) :
    (l.map fun a => f a + g a).sum = (l.map f).sum + (l.map g).sum := by
  induction l with
  | nil => simp
  | cons a l ih => simp [ih]; omega

/-- Over a duplicate-free list containing s, the indicator of s sums
to one. -/
theorem sum_indicator (s : String) (l : List String) (hs : s ∈ l) (hn : l.Nodup) :
    (l.map fun c => if s == c then 1 else 0).sum = 1 := by
  induction l with
  | nil => cases hs
  | cons a l ih =>
    rw [List.map_cons, List.sum_cons]
    rcases List.mem_cons.mp hs with rfl | hmem
    · have hsl : s ∉ l := (List.nodup_cons.mp hn).1
      have hz : (l.map fun c => if s == c then 1 else 0).sum = 0 := by
        apply List.sum_eq_zero
        intro x hx
        obtain ⟨c, hc, rfl⟩ := List.mem_map.mp hx
        have hne : (s == c) = false := by
          apply beq_eq_false_iff_ne.mpr
          intro hsc
          exact hsl (hsc ▸ hc)
        rw [hne]
        simp
      rw [hz, beq_self_eq_true, if_pos rfl]
    · have hsa : (s == a) = false := by
        apply beq_eq_false_iff_ne.mpr
        intro h
        exact (List.nodup_cons.mp hn).1 (h ▸ hmem)
      rw [hsa]
      simp only [Bool.false_eq_true, if_false, Nat.zero_add]
      exact ih hmem (List.nodup_cons.mp hn).2

/-- The six per-category counts sum to the number of rows. -/
theorem counts_sum (rows : List DayRow) :
    (categoryOrder.map fun c =>
      (rows.filter fun r => get_aqi_category r.pm25 == c).length).sum = rows.length := by
  induction rows with
  | nil => simp
  | cons r rs ih =>
    have hfun : (fun c : String =>
        ((r :: rs).filter fun r2 => get_aqi_category r2.pm25 == c).length) =
        fun c : String =>
          (if get_aqi_category r.pm25 == c then 1 else 0) +
            (rs.filter fun r2 => get_aqi_category r2.pm25 == c).length := by
      funext c
      rw [List.filter_cons]
      by_cases h : (get_aqi_category r.pm25 == c) = true
      · simp [h]
        omega
      · simp [h]
    rw [hfun, sum_map_add, sum_indicator _ _ (get_aqi_category_mem_order r.pm25) (by decide), ih]
    rw [List.length_cons]
    omega

/-- C7: the category-distribution aggregate covers exactly the six
fixed categories in order (absent categories count zero via the
reindex fill), and its counts sum to the total row count of the
dataset. -/
theorem aqi_counts_spec (rows : List DayRow) :
    (aqiCounts rows).map Prod.fst = categoryOrder ∧
    (aqiCounts rows).length = 6 ∧
    ((aqiCounts rows).map Prod.snd).sum = rows.length := by
  refine ⟨?_, ?_, ?_⟩
  · unfold aqiCounts
    rw [List.map_map]
    rfl
  · unfold aqiCounts
    rw [List.length_map]
    rfl
  · unfold aqiCounts
    rw [List.map_map]
    exact counts_sum rows

/-! ## Missing-source behaviour (visualization.py lines 19-24, 36-38,
50-51, 147, 186)

`safe_read` returns `pd.DataFrame()` — a frame with no columns and no
rows — for a missing file (lines 19-24).  The frame-level model below
tracks the column list and the row count, which is all the
missing-hourly-source scenario depends on: selecting a column that a
frame does not have (`city_hour['City']` at line 147) raises a pandas
KeyError, modelled as `Except.error`. -/

/-- Column-level model of a pandas DataFrame. -/
structure PFrame : Type where
  cols : List String
  nrows : ℕ
deriving DecidableEq, Repr

/-- `pd.DataFrame()`: what `safe_read` yields for a missing file. -/
def emptyFrame : PFrame := ⟨[], 0⟩

/-- Column assignment `df[c] = ...` creates the column when absent. -/
def addCol (df : PFrame) (c : String) : PFrame :=
  ⟨if df.cols.contains c then df.cols else df.cols ++ [c], df.nrows⟩

/-- The City normalization loop body (lines 36-38): it runs only when
the frame is non-empty and has a City column, and touches only that
column, so at frame level it is the identity. -/
def normalizeStepFrame (df : PFrame) : PFrame := df

/-- Lines 50-51: `city_hour['Datetime'] = pd.to_datetime(...)` and
`city_hour['Hour'] = city_hour['Datetime'].dt.hour` create those two
columns on the hourly frame. -/
def hourlyPreprocess (df : PFrame) : PFrame :=
  addCol (addCol (normalizeStepFrame df) "Datetime") "Hour"

/-- Line 147, `city_hour[city_hour['City'] == 'Delhi']`: selecting the
City column raises KeyError when the frame has no such column. -/
def filterByCity (df : PFrame) : Except String PFrame :=
  if df.cols.contains "City" then .ok df else .error "KeyError: City"

/-- Line 186, `if not station_day.empty:` — the station section runs
only on a non-empty station frame. -/
def stationSectionRuns (station_day : PFrame) : Bool :=
  !(station_day.nrows == 0)

/-- C5 (code evaluated at the failing input): with the hourly and
station sources missing, both frames are empty; the guarded station
section is correctly skipped, but the hourly Delhi filter of line 147
selects the City column of an empty frame that never received one, so
the run aborts with a KeyError instead of completing. -/
theorem missing_hourly_source_keyerror :
    filterByCity (hourlyPreprocess emptyFrame) = Except.error "KeyError: City" ∧
    stationSectionRuns emptyFrame = false :=
  ⟨rfl, rfl⟩

/-! ## Daily timestamp parsing (visualization.py lines 40-41)

`city_day['Datetime'] = pd.to_datetime(city_day.get('Datetime'),
errors='coerce')` followed by `city_day.dropna(subset=['Datetime'])`.
`errors='coerce'` maps unparseable values to NaT, modelled as an
abstract parse function into `Option`; `df.get` of an absent column
returns None and `to_datetime(None, errors='coerce')` is NaT, so
every row's parsed value is `none` in that case. -/

/-- The coerced-parse column assignment of line 40: each row is paired
with its parsed timestamp (`none` = NaT); with the Datetime column
absent, every row gets NaT. -/
def toDatetimeDaily {α : Type} (hasCol : Bool) (parse : String → Option ℕ)
    (getDT : α → String) (rows : List α) : List (α × Option ℕ) :=
  rows.map fun r => (r, if hasCol then parse (getDT r) else none)

/-- The `dropna(subset=['Datetime'])` of line 41. -/
def dropnaDatetime {α : Type} (l : List (α × Option ℕ)) : List (α × Option ℕ) :=
  l.filter fun p => p.2.isSome

/-- C9: a daily row survives the Datetime parse-and-drop exactly when
its timestamp parses (rows whose parse fails are dropped whole), and
when the Datetime column is absent entirely, the step degrades
gracefully to dropping every row instead of faulting. -/
theorem daily_datetime_parse_spec {α : Type} (parse : String → Option ℕ)
    (getDT : α → String) (rows : List α) :
    (∀ r ∈ rows,
      ((r, parse (getDT r)) ∈ dropnaDatetime (toDatetimeDaily true parse getDT rows) ↔
        (parse (getDT r)).isSome = true)) ∧
    dropnaDatetime (toDatetimeDaily false parse getDT rows) = [] := by
  constructor
  · intro r hr
    constructor
    · intro hmem
      exact (List.mem_filter.mp hmem).2
    · intro hsome
      apply List.mem_filter.mpr
      refine ⟨?_, hsome⟩
      exact List.mem_map.mpr ⟨r, hr, rfl⟩
  · apply List.filter_eq_nil_iff.mpr
    intro p hp
    obtain ⟨r, _, rfl⟩ := List.mem_map.mp hp
    simp

/-- A concrete parse function for the witness: only the string "d1"
parses. -/
def parseW (s : String) : Option ℕ := if s = "d1" then some 20200101 else none

/-- Witness for `daily_datetime_parse_spec` on a concrete two-row
dataset whose rows are their own timestamp strings: the parseable row
"d1" is kept with its parse, and with the column absent everything is
dropped. -/
theorem daily_datetime_parse_spec_witness :
    (("d1", some 20200101) ∈
      dropnaDatetime (toDatetimeDaily true parseW id ["d1", "bad"])) ∧
    dropnaDatetime (toDatetimeDaily false parseW id ["d1", "bad"]) = [] :=
  ⟨((daily_datetime_parse_spec parseW id ["d1", "bad"]).1 "d1" (by decide)).mpr (by decide),
   (daily_datetime_parse_spec parseW id ["d1", "bad"]).2⟩

/-! ## Hourly timestamp handling (visualization.py lines 50-51 and
147-148)

The hourly frame is parsed with `errors='coerce'` but *not* dropped:
`city_hour['Hour'] = city_hour['Datetime'].dt.hour` is NaN on NaT
rows, and `delhi_hour.groupby('Hour')` silently excludes NaN keys. -/

/-- Lines 50-51 on the hourly frame: pair each row with its derived
hour-of-day, `none` for rows whose timestamp fails to parse; no row is
dropped. -/
def withHour {α δ : Type} (parse : String → Option δ) (hourOf : δ → ℕ)
    (getDT : α → String) (rows : List α) : List (α × Option ℕ) :=
  rows.map fun r => (r, (parse (getDT r)).map hourOf)

/-- The rows contributing to the group of hour h in
`groupby('Hour')` (line 148). -/
def hourGroup {α : Type} (l : List (α × Option ℕ)) (h : ℕ) : List (α × Option ℕ) :=
  l.filter fun p => p.2 == some h

/-- C10: the hourly dataset keeps rows with unparseable timestamps
(the row count is preserved); such a row carries a null derived hour,
belongs to no hour group, and every hour group — hence the per-hour
mean aggregation — is unchanged by restricting to the rows that did
parse. -/
theorem hourly_retention_spec {α δ : Type} (parse : String → Option δ)
    (hourOf : δ → ℕ) (getDT : α → String) (rows : List α) :
    (withHour parse hourOf getDT rows).length = rows.length ∧
    (∀ r ∈ rows, parse (getDT r) = none →
      ((r, (none : Option ℕ)) ∈ withHour parse hourOf getDT rows ∧
        ∀ h : ℕ, (r, (none : Option ℕ)) ∉ hourGroup (withHour parse hourOf getDT rows) h)) ∧
    (∀ h : ℕ, hourGroup (withHour parse hourOf getDT rows) h =
      hourGroup (withHour parse hourOf getDT
        (rows.filter fun r => (parse (getDT r)).isSome)) h) := by
  refine ⟨List.length_map rows _, ?_, ?_⟩
  · intro r hr hnone
    constructor
    · have : (r, (parse (getDT r)).map hourOf) ∈ withHour parse hourOf getDT rows :=
        List.mem_map.mpr ⟨r, hr, rfl⟩
      rw [hnone] at this
      exact this
    · intro h hmem
      have := (List.mem_filter.mp hmem).2
      simp at this
  · intro h
    have hcomm : withHour parse hourOf getDT (rows.filter fun r => (parse (getDT r)).isSome) =
        (withHour parse hourOf getDT rows).filter fun p => p.2.isSome := by
      unfold withHour
      induction rows with
      | nil => rfl
      | cons r rs ih =>
        rw [List.filter_cons, List.map_cons, List.filter_cons]
        by_cases hp : (parse (getDT r)).isSome = true
        · rw [if_pos hp, List.map_cons, ih, if_pos]
          simp [hp]
        · rw [if_neg hp, ih, if_neg]
          simp
          simpa using hp
    rw [hcomm]
    unfold hourGroup
    rw [List.filter_filter]
    apply List.filter_congr
    intro p hp
    cases hv : p.2 with
    | none => simp
    | some v => simp

/-- Witness for `hourly_retention_spec`: a single hourly row whose
timestamp never parses belongs to no hour group (here hour 3). -/
theorem hourly_retention_spec_witness :
    ((0 : ℕ), (none : Option ℕ)) ∉
      hourGroup (withHour (fun _ : String => (none : Option ℕ)) id
        (fun n : ℕ => toString n) [0]) 3 :=
  ((hourly_retention_spec (fun _ => none) id (fun n => toString n) [0]).2.1
    0 (by decide) rfl).2 3

/-! ## Categorical text normalization (visualization.py lines 36-38)

`df['City'] = df['City'].astype(str).str.strip().str.title()` runs for
each loaded frame that has a City column.  Only the City column is
touched; a Station column is left as loaded.  Strings are modelled as
lists of character codes with the ASCII semantics of Python's
`str.strip` (drop whitespace at both ends) and `str.title` (first
letter of each maximal letter run uppercased, the rest lowercased). -/

/-- Python `str.strip`'s default whitespace set (space, tab, newline,
carriage return, vertical tab, form feed), on character codes. -/
def isSpaceCode (n : ℕ) : Bool :=
  n == 32 || n == 9 || n == 10 || n == 13 || n == 11 || n == 12

/-- ASCII lowercase letter test. -/
def isLowerCode (n : ℕ) : Bool := decide (97 ≤ n ∧ n ≤ 122)

/-- ASCII uppercase letter test. -/
def isUpperCode (n : ℕ) : Bool := decide (65 ≤ n ∧ n ≤ 90)

/-- ASCII letter test (Python's notion of a cased word character). -/
def isAlphaCode (n : ℕ) : Bool := isLowerCode n || isUpperCode n

/-- ASCII uppercasing of a character code. -/
def toUpperCode (n : ℕ) : ℕ := if isLowerCode n then n - 32 else n

/-- ASCII lowercasing of a character code. -/
def toLowerCode (n : ℕ) : ℕ := if isUpperCode n then n + 32 else n

/-- Python `str.strip`: drop whitespace from both ends. -/
def stripCode (l : List ℕ) : List ℕ :=
  ((l.dropWhile isSpaceCode).reverse.dropWhile isSpaceCode).reverse

/-- The character transformation of `str.title`, given whether the
previous character was a letter. -/
def titleMap (prev : Bool) (n : ℕ) : ℕ :=
  if isAlphaCode n then (if prev then toLowerCode n else toUpperCode n) else n

/-- The stateful traversal of `str.title`. -/
def titleGo : Bool → List ℕ → List ℕ
  | _, [] => []
  | prev, c :: cs => titleMap prev c :: titleGo (isAlphaCode c) cs

/-- Python `str.title`. -/
def titleCode (l : List ℕ) : List ℕ := titleGo false l

/-- The normalization applied to the City column at line 38:
`.str.strip().str.title()`. -/
def pyCleanText (l : List ℕ) : List ℕ := titleCode (stripCode l)

/-- Uppercasing is idempotent on character codes. -/
theorem toUpperCode_idem (n : ℕ) : toUpperCode (toUpperCode n) = toUpperCode n := by
  unfold toUpperCode
  by_cases h : isLowerCode n = true
  · rw [if_pos h]
    have h1 : 97 ≤ n ∧ n ≤ 122 := by
      have := h
      unfold isLowerCode at this
      exact of_decide_eq_true this
    have h2 : isLowerCode (n - 32) = false := by
      unfold isLowerCode
      apply decide_eq_false
      omega
    rw [h2]
    simp
  · rw [if_neg h, if_neg h]

/-- Lowercasing is idempotent on character codes. -/
theorem toLowerCode_idem (n : ℕ) : toLowerCode (toLowerCode n) = toLowerCode n := by
  unfold toLowerCode
  by_cases h : isUpperCode n = true
  · rw [if_pos h]
    have h1 : 65 ≤ n ∧ n ≤ 90 := by
      have := h
      unfold isUpperCode at this
      exact of_decide_eq_true this
    have h2 : isUpperCode (n + 32) = false := by
      unfold isUpperCode
      apply decide_eq_false
      omega
    rw [h2]
    simp
  · rw [if_neg h, if_neg h]

/-- Uppercasing preserves letterness. -/
theorem isAlphaCode_toUpperCode (n : ℕ) : isAlphaCode (toUpperCode n) = isAlphaCode n := by
  unfold toUpperCode
  by_cases h : isLowerCode n = true
  · rw [if_pos h]
    have h1 : 97 ≤ n ∧ n ≤ 122 := by
      have := h
      unfold isLowerCode at this
      exact of_decide_eq_true this
    unfold isAlphaCode isLowerCode isUpperCode
    rw [Bool.eq_iff_iff]
    simp only [Bool.or_eq_true, decide_eq_true_eq]
    omega
  · rw [if_neg h]

/-- Lowercasing preserves letterness. -/
theorem isAlphaCode_toLowerCode (n : ℕ) : isAlphaCode (toLowerCode n) = isAlphaCode n := by
  unfold toLowerCode
  by_cases h : isUpperCode n = true
  · rw [if_pos h]
    have h1 : 65 ≤ n ∧ n ≤ 90 := by
      have := h
      unfold isUpperCode at this
      exact of_decide_eq_true this
    unfold isAlphaCode isLowerCode isUpperCode
    rw [Bool.eq_iff_iff]
    simp only [Bool.or_eq_true, decide_eq_true_eq]
    omega
  · rw [if_neg h]

/-- Uppercasing preserves whitespaceness. -/
theorem isSpaceCode_toUpperCode (n : ℕ) : isSpaceCode (toUpperCode n) = isSpaceCode n := by
  unfold toUpperCode
  by_cases h : isLowerCode n = true
  · rw [if_pos h]
    have h1 : 97 ≤ n ∧ n ≤ 122 := by
      have := h
      unfold isLowerCode at this
      exact of_decide_eq_true this
    unfold isSpaceCode
    rw [Bool.eq_iff_iff]
    simp only [Bool.or_eq_true, beq_iff_eq]
    omega
  · rw [if_neg h]

/-- Lowercasing preserves whitespaceness. -/
theorem isSpaceCode_toLowerCode (n : ℕ) : isSpaceCode (toLowerCode n) = isSpaceCode n := by
  unfold toLowerCode
  by_cases h : isUpperCode n = true
  · rw [if_pos h]
    have h1 : 65 ≤ n ∧ n ≤ 90 := by
      have := h
      unfold isUpperCode at this
      exact of_decide_eq_true this
    unfold isSpaceCode
    rw [Bool.eq_iff_iff]
    simp only [Bool.or_eq_true, beq_iff_eq]
    omega
  · rw [if_neg h]

/-- The title transformation preserves letterness of a character. -/
theorem isAlphaCode_titleMap (prev : Bool) (n : ℕ) :
    isAlphaCode (titleMap prev n) = isAlphaCode n := by
  unfold titleMap
  by_cases h : isAlphaCode n = true
  · rw [if_pos h]
    cases prev with
    | false => simp only [Bool.false_eq_true, if_false]; exact isAlphaCode_toUpperCode n
    | true => simp only [if_true]; exact isAlphaCode_toLowerCode n
  · rw [if_neg h]

/-- The title transformation preserves whitespaceness of a character. -/
theorem isSpaceCode_titleMap (prev : Bool) (n : ℕ) :
    isSpaceCode (titleMap prev n) = isSpaceCode n := by
  unfold titleMap
  by_cases h : isAlphaCode n = true
  · rw [if_pos h]
    cases prev with
    | false => simp only [Bool.false_eq_true, if_false]; exact isSpaceCode_toUpperCode n
    | true => simp only [if_true]; exact isSpaceCode_toLowerCode n
  · rw [if_neg h]

/-- The title transformation is idempotent per character. -/
theorem titleMap_titleMap (prev : Bool) (n : ℕ) :
    titleMap prev (titleMap prev n) = titleMap prev n := by
  by_cases h : isAlphaCode n = true
  · cases prev with
    | false =>
      have h1 : titleMap false n = toUpperCode n := by
        unfold titleMap; rw [if_pos h]; simp
      rw [h1]
      have h2 : isAlphaCode (toUpperCode n) = true := by
        rw [isAlphaCode_toUpperCode]; exact h
      unfold titleMap
      rw [if_pos h2]
      simp only [Bool.false_eq_true, if_false]
      exact toUpperCode_idem n
    | true =>
      have h1 : titleMap true n = toLowerCode n := by
        unfold titleMap; rw [if_pos h]; simp
      rw [h1]
      have h2 : isAlphaCode (toLowerCode n) = true := by
        rw [isAlphaCode_toLowerCode]; exact h
      unfold titleMap
      rw [if_pos h2]
      simp only [if_true]
      exact toLowerCode_idem n
  · have h1 : titleMap prev n = n := by unfold titleMap; rw [if_neg h]
    rw [h1, h1]

/-- `str.title` is idempotent. -/
theorem titleGo_idem (l : List ℕ) : ∀ b : Bool, titleGo b (titleGo b l) = titleGo b l := by
  induction l with
  | nil => intro b; rfl
  | cons c cs ih =>
    intro b
    show titleGo b (titleMap b c :: titleGo (isAlphaCode c) cs) =
      titleMap b c :: titleGo (isAlphaCode c) cs
    show titleMap b (titleMap b c) ::
        titleGo (isAlphaCode (titleMap b c)) (titleGo (isAlphaCode c) cs) =
      titleMap b c :: titleGo (isAlphaCode c) cs
    rw [titleMap_titleMap, isAlphaCode_titleMap, ih]

/-- The whitespace status of the last character is unchanged by the
title traversal. -/
theorem titleGo_getLast_space (l : List ℕ) : ∀ b : Bool,
    ((titleGo b l).getLast?.map isSpaceCode) = (l.getLast?.map isSpaceCode) := by
  induction l with
  | nil => intro b; rfl
  | cons c cs ih =>
    intro b
    cases cs with
    | nil =>
      show (([titleMap b c] : List ℕ).getLast?.map isSpaceCode) =
        (([c] : List ℕ).getLast?.map isSpaceCode)
      simp [isSpaceCode_titleMap]
    | cons c2 cs2 =>
      show ((titleMap b c :: titleGo (isAlphaCode c) (c2 :: cs2)).getLast?.map isSpaceCode) =
        ((c :: c2 :: cs2).getLast?.map isSpaceCode)
      have hne : titleGo (isAlphaCode c) (c2 :: cs2) =
          titleMap (isAlphaCode c) c2 :: titleGo (isAlphaCode c2) cs2 := rfl
      rw [hne, List.getLast?_cons_cons, List.getLast?_cons_cons, ← hne]
      exact ih (isAlphaCode c)

/-- The head of a whitespace-dropWhile is not whitespace. -/
theorem dropWhile_space_head (l : List ℕ) :
    ∀ x, (l.dropWhile isSpaceCode).head? = some x → isSpaceCode x = false := by
  induction l with
  | nil => intro x hx; cases hx
  | cons c cs ih =>
    intro x hx
    by_cases h : isSpaceCode c = true
    · rw [List.dropWhile_cons_of_pos h] at hx
      exact ih x hx
    · rw [List.dropWhile_cons_of_neg h] at hx
      cases hx
      exact Bool.not_eq_true _ |>.mp h

/-- A nonempty whitespace-dropWhile keeps the last element. -/
theorem dropWhile_space_getLast (l : List ℕ) (hne : l.dropWhile isSpaceCode ≠ []) :
    (l.dropWhile isSpaceCode).getLast? = l.getLast? := by
  induction l with
  | nil => exact absurd rfl hne
  | cons c cs ih =>
    by_cases h : isSpaceCode c = true
    · rw [List.dropWhile_cons_of_pos h]
      rw [List.dropWhile_cons_of_pos h] at hne
      cases hcs : cs with
      | nil => rw [hcs] at hne; exact absurd rfl hne
      | cons c2 cs2 =>
        subst hcs
        rw [ih hne, List.getLast?_cons_cons]
    · rw [List.dropWhile_cons_of_neg h]

/-- A list whose ends are not whitespace is a strip fixed point. -/
theorem stripCode_eq_self (l : List ℕ)
    (hhead : ∀ x, l.head? = some x → isSpaceCode x = false)
    (hlast : ∀ x, l.getLast? = some x → isSpaceCode x = false) :
    stripCode l = l := by
  have hd : ∀ (m : List ℕ), (∀ x, m.head? = some x → isSpaceCode x = false) →
      m.dropWhile isSpaceCode = m := by
    intro m hm
    cases m with
    | nil => rfl
    | cons c cs =>
      have := hm c rfl
      rw [List.dropWhile_cons_of_neg (by rw [this]; simp)]
  unfold stripCode
  rw [hd l hhead]
  have hrev : ∀ x, l.reverse.head? = some x → isSpaceCode x = false := by
    intro x hx
    rw [List.head?_reverse] at hx
    exact hlast x hx
  rw [hd l.reverse hrev, List.reverse_reverse]

/-- The head of a stripped string is not whitespace. -/
theorem stripCode_head (l : List ℕ) :
    ∀ x, (stripCode l).head? = some x → isSpaceCode x = false := by
  intro x hx
  unfold stripCode at hx
  rw [List.head?_reverse] at hx
  have hne : (l.dropWhile isSpaceCode).reverse.dropWhile isSpaceCode ≠ [] := by
    intro h0
    rw [h0] at hx
    cases hx
  rw [dropWhile_space_getLast _ hne, List.getLast?_reverse] at hx
  exact dropWhile_space_head l x hx

/-- The last character of a stripped string is not whitespace. -/
theorem stripCode_getLast (l : List ℕ) :
    ∀ x, (stripCode l).getLast? = some x → isSpaceCode x = false := by
  intro x hx
  unfold stripCode at hx
  rw [List.getLast?_reverse] at hx
  exact dropWhile_space_head _ x hx

/-- The normalized City text is clean: stripping and titling are both
fixed points on it. -/
theorem pyCleanText_clean (s : List ℕ) :
    stripCode (pyCleanText s) = pyCleanText s ∧
    titleCode (pyCleanText s) = pyCleanText s := by
  constructor
  · apply stripCode_eq_self
    · intro x hx
      unfold pyCleanText titleCode at hx
      cases hs : stripCode s with
      | nil => rw [hs] at hx; cases hx
      | cons c cs =>
        rw [hs] at hx
        have : titleGo false (c :: cs) = titleMap false c :: titleGo (isAlphaCode c) cs := rfl
        rw [this] at hx
        cases hx
        rw [isSpaceCode_titleMap]
        apply stripCode_head s
        rw [hs]
        rfl
    · intro x hx
      unfold pyCleanText titleCode at hx
      have hmap := titleGo_getLast_space (stripCode s) false
      rw [hx] at hmap
      obtain ⟨d, hd, hds⟩ := (Option.map_eq_some').mp hmap.symm
      rw [← hds]
      exact stripCode_getLast s d hd
  · exact titleGo_idem (stripCode s) false

/-- A record of the station-level dataset: City and Station text
fields (the pollutant columns play no role in normalization). -/
structure SRow : Type where
  city : List ℕ
  station : List ℕ
deriving DecidableEq, Repr

/-- The normalization loop of lines 36-38 on a frame: when the frame
has a City column, that column is stripped and title-cased; no other
column is touched. -/
def normalizeFrameCity (hasCity : Bool) (rows : List SRow) : List SRow :=
  if hasCity then rows.map fun r => { r with city := pyCleanText r.city } else rows

/-- C8 (amended): after the normalization loop every record's City
field has no leading or trailing whitespace and is title-cased; the
Station field, by contrast, is not normalized (see the
counterexample). -/
theorem city_normalization_spec (rows : List SRow) (r : SRow)
    (hr : r ∈ normalizeFrameCity true rows) :
    stripCode r.city = r.city ∧ titleCode r.city = r.city := by
  unfold normalizeFrameCity at hr
  simp only [if_true] at hr
  obtain ⟨r0, _, rfl⟩ := List.mem_map.mp hr
  simpa using pyCleanText_clean r0.city

/-- Witness for `city_normalization_spec`: the raw City text " deL"
(codes [32,100,101,76]) normalizes to "Del" (codes [68,101,108]),
which is strip- and title-fixed. -/
theorem city_normalization_spec_witness :
    stripCode [68, 101, 108] = [68, 101, 108] ∧
    titleCode [68, 101, 108] = [68, 101, 108] :=
  city_normalization_spec [⟨[32, 100, 101, 76], [32, 97]⟩]
    ⟨[68, 101, 108], [32, 97]⟩ (by decide)

/-- C8 counterexample: a Station text field " a" (codes [32,97]) with
leading whitespace survives the normalization loop unchanged — the
loop normalizes only the City column — so not every categorical text
field is whitespace-free after normalization. -/
theorem station_not_normalized_counterexample :
    (normalizeFrameCity true [⟨[100, 101, 108], [32, 97]⟩]).map (fun r => r.station) =
      [[32, 97]] ∧
    isSpaceCode 32 = true ∧
    stripCode [32, 97] ≠ [32, 97] := by
  decide

end AirQuality
